import Mathlib

/-!
Verification of the IWAnno preprocessing pipeline (datapacks/iw_dataset.py,
datapacks/TopLeftPad.py, datapacks/IWFullSceneDataset.py) against its
natural-language specification.

Images and masks are shallowly embedded as lists of rows of pixels, a pixel
being a list of channel values (length 3 for well-formed data, matching the
H by W by 3 numpy buffers of the source). Pixel values are naturals (the
uint8 byte range of the source images), normalized image values are exact
rationals. The numpy and cv2 library calls the source makes are modelled as
executable Lean functions; the dataset-processing logic itself is translated
line by line from the Python source.
-/

/-- A two-dimensional buffer: a list of rows. -/
abbrev Grid (α : Type) := List (List α)

/-! ## ColorCodec

All three dataset classes share the color map
`{(0,0,0): 0, (255,255,255): 1}` and pack an RGB triple into a single
integer as `r<<16 | g<<8 | b` before looking it up. -/

/-- Packed color of a pixel: `(r << 16) | (g << 8) | b` on byte channels
(the shifts of the source never overflow the uint32 it uses). -/
def encPix (p : List ℕ) : ℕ :=
  p.getD 0 0 * 65536 + p.getD 1 0 * 256 + p.getD 2 0

/-- The color map of all three dataset classes, keys packed, in insertion
order: background `(0,0,0) -> 0`, internal wave `(255,255,255) -> 1`. -/
def colorToIndex : List (ℕ × ℕ) := [(0, 0), (16777215, 1)]

/-- Table lookup of one pixel: `color_to_index.get(x, None)` of the source. -/
def decodePix (p : List ℕ) : Option ℕ :=
  colorToIndex.lookup (encPix p)

/-- Total reference decoder for a pixel; used only where every pixel is
known, in which case the `getD` branch is unreachable. -/
def decodeRefPix (p : List ℕ) : ℕ :=
  (decodePix p).getD 0

/-- Reference decode of a whole mask, pixelwise. -/
def decodeRef (m : Grid (List ℕ)) : Grid ℕ :=
  m.map (fun row => row.map decodeRefPix)

/-- Every pixel of the mask has a color-map entry. -/
def maskKnown (m : Grid (List ℕ)) : Prop :=
  ∀ row ∈ m, ∀ p ∈ row, (decodePix p).isSome = true

/-- Errors of `IWFullSceneDataset.process_data`: the ValueError raised when
the raw image is smaller than the crop size (it carries the filename and the
crop size in its message); the ValueError of `apply_color_map`, whose
message is the fixed string "Found unknown pixel values in mask!", reached
only when `np.vectorize` infers an object dtype (first row-major pixel
unknown); and the uninformative TypeError raised inside `np.vectorize`
itself when the first pixel is known (integer output dtype) and a later
pixel's None fails the cast. -/
inductive FSError where
  | tooSmall (filename : String) (size : ℕ)
  | unknownColors
  | typeError
deriving DecidableEq

/-- Errors of `IWDataset.process_data` color decoding: the reporting
ValueError carries the mask path and the distinct offending packed values
(np.unique of the offenders, so sorted and deduplicated), but it is reached
only when `np.vectorize` infers an object dtype (first row-major pixel
unknown); when the first pixel is known, the None of a later unknown pixel
fails the integer cast inside `np.vectorize` and an uninformative
TypeError, carrying neither the values nor the path, is raised instead. -/
inductive IWError where
  | unknownColors (maskPath : String) (uniqueValues : List ℕ)
  | typeError
deriving DecidableEq

/-- `IWFullSceneDataset.apply_color_map`: map every pixel through the
table. `np.vectorize` without `otypes` fixes the output dtype from the
first row-major element: if the first pixel is a known color the dtype is
integer and a later unknown pixel's None raises a TypeError inside
vectorize; only when the first pixel is itself unknown does the
object-dtype result reach the check that raises the fixed
"Found unknown pixel values in mask!" ValueError. (On a size-0 buffer
vectorize itself raises; buffers read by cv2.imread are never empty, and
the model keeps the empty mask on the trivial success path.) -/
def fsApplyColorMap (m : Grid (List ℕ)) : Except FSError (Grid ℕ) :=
  match m.mapM (fun row => row.mapM decodePix) with
  | some g => Except.ok g
  | none =>
      if (decodePix ((m.flatMap (fun row => row)).headD [])).isSome then
        Except.error FSError.typeError
      else
        Except.error FSError.unknownColors

/-- Insert into a sorted list, keeping it sorted ascending. -/
def insertSorted (x : ℕ) : List ℕ → List ℕ
  | [] => [x]
  | y :: ys => if x ≤ y then x :: y :: ys else y :: insertSorted x ys

/-- Insertion sort, ascending. -/
def sortAsc (l : List ℕ) : List ℕ := l.foldr insertSorted []

/-- `np.unique`: the distinct values, sorted ascending. -/
def sortedDedup (l : List ℕ) : List ℕ := (sortAsc l).dedup

/-- The packed values of the unknown pixels of a mask, in row-major order
(`mask_encoded[problem_mask]` of the source). -/
def maskOffenders (m : Grid (List ℕ)) : List ℕ :=
  (m.flatMap (fun row => row.map encPix)).filter
    (fun e => (colorToIndex.lookup e).isNone)

/-- `IWDataset.process_data` color decoding (its apply-color-map block):
map every pixel through the table. As in `fsApplyColorMap`, the
`np.vectorize` call fixes its output dtype from the first row-major pixel:
only when that pixel is itself unknown (object dtype) does execution reach
the reporting ValueError carrying the mask path and the np.unique of the
offending packed values; when the first pixel is known, a later unknown
pixel raises an uninformative TypeError inside vectorize instead. (The
size-0 buffer, on which vectorize itself raises, cannot come out of
cv2.imread; the model keeps the empty mask on the trivial success path.) -/
def iwApplyColorMap (maskPath : String) (m : Grid (List ℕ)) :
    Except IWError (Grid ℕ) :=
  match m.mapM (fun row => row.mapM decodePix) with
  | some g => Except.ok g
  | none =>
      if (decodePix ((m.flatMap (fun row => row)).headD [])).isSome then
        Except.error IWError.typeError
      else
        Except.error (IWError.unknownColors maskPath
          (sortedDedup (maskOffenders m)))

/-- `TopLeftPad.apply_color_map` per-pixel value: start from -1 and assign
the class of each matching color-map key in insertion order. -/
def tlpPixVal (p : List ℕ) : ℤ :=
  colorToIndex.foldl
    (fun acc kv => if encPix p = kv.1 then (kv.2 : ℤ) else acc) (-1)

/-- `TopLeftPad.apply_color_map`: build the -1-initialized index image,
fail with a fixed message if any -1 remains, else cast to unsigned. -/
def tlpApplyColorMap (m : Grid (List ℕ)) : Except String (Grid ℕ) :=
  let indexed := m.map (fun row => row.map tlpPixVal)
  if indexed.any (fun row => row.any (fun v => v == -1)) then
    Except.error "Found unknown pixel values in mask!"
  else
    Except.ok (indexed.map (fun row => row.map Int.toNat))

/-! ## Normalizer

All three classes build `Normalize(mean=[0.485,0.456,0.406],
std=[0.229,0.224,0.225])` and apply it to the image scaled to [0,1]. -/

/-- Per-channel mean of the shared Normalize instance. -/
def meanC (c : ℕ) : ℚ := [(0.485 : ℚ), 0.456, 0.406].getD c 0

/-- Per-channel std of the shared Normalize instance. -/
def stdC (c : ℕ) : ℚ := [(0.229 : ℚ), 0.224, 0.225].getD c 1

/-- One normalized channel value: `(v/255 - mean[c]) / std[c]`. -/
def normVal (c : ℕ) (v : ℕ) : ℚ := ((v : ℚ) / 255 - meanC c) / stdC c

/-- Normalize the channels of one pixel, channel index running from `c`. -/
def normPixFrom (c : ℕ) : List ℕ → List ℚ
  | [] => []
  | v :: rest => normVal c v :: normPixFrom (c + 1) rest

/-- Normalize one pixel (channels 0, 1, 2, ...). -/
def normPix (p : List ℕ) : List ℚ := normPixFrom 0 p

/-- Normalize a whole image elementwise: divide by 255 and apply the
per-channel affine transform, as the `astype/255` plus `Normalize` steps
of the source do. -/
def normImage (g : Grid (List ℕ)) : Grid (List ℚ) :=
  g.map (fun row => row.map normPix)

/-! ## Tiling geometry (IWFullSceneDataset) -/

/-- Python `range(0, stop, step)` for a positive step (the source always
calls it with `step = img_size // 2`; Python raises on step 0, which the
theorems exclude by requiring a tile size of at least 2). -/
def pyRange (stop step : ℕ) : List ℕ :=
  if step = 0 then []
  else (List.range ((stop + step - 1) / step)).map (fun k => k * step)

/-- The tile origins of `process_data`: rows `range(0, H-S+1, S//2)` crossed
with columns `range(0, W-S+1, S//2)`, row-major. -/
def tileOrigins (H W S : ℕ) : List (ℕ × ℕ) :=
  (pyRange (H - S + 1) (S / 2)).flatMap
    (fun r => (pyRange (W - S + 1) (S / 2)).map (fun c => (r, c)))

/-- Numpy slice `g[r:r+S, c:c+S]`. -/
def crop2 (g : Grid α) (r c S : ℕ) : Grid α :=
  ((g.drop r).take S).map (fun row => (row.drop c).take S)

/-- `IWFullSceneDataset.process_data` after the files are read and the image
is channel-normalized to 3 channels: reject images smaller than the tile
size, then yield, for every origin in row-major order, the decoded mask crop
paired with the normalized image crop. The lazy generator is modelled as the
list of its yields; a decode error aborts it. -/
def fsProcess (filename : String) (img mask : Grid (List ℕ)) (S : ℕ) :
    Except FSError (List (Grid (List ℚ) × Grid ℕ)) :=
  let H := img.length
  let W := (img.headD []).length
  if H < S ∨ W < S then Except.error (FSError.tooSmall filename S)
  else
    (tileOrigins H W S).mapM (fun rc =>
      (fsApplyColorMap (crop2 mask rc.1 rc.2 S)).map
        (fun dm => (normImage (crop2 img rc.1 rc.2 S), dm)))

/-- The reference tile list: for every origin `(r, c)` of `tileOrigins`, in
row-major order, the normalized image crop and the decoded mask crop. -/
def fsTilesRef (img mask : Grid (List ℕ)) (S : ℕ) :
    List (Grid (List ℚ) × Grid ℕ) :=
  (tileOrigins img.length (img.headD []).length S).map (fun rc =>
    (normImage (crop2 img rc.1 rc.2 S), decodeRef (crop2 mask rc.1 rc.2 S)))

/-! ## PadCrop geometry (TopLeftPad) -/

/-- Python `int(round(x))`: round half to even. -/
def pyRound (q : ℚ) : ℤ :=
  let f := ⌊q⌋
  if q - f < 1 / 2 then f
  else if 1 / 2 < q - f then f + 1
  else if f % 2 = 0 then f else f + 1

/-- One scaled dimension of `TopLeftPad.process_data`:
`int(round(d * (S / max(H, W))))`. -/
def scaleDim (d m S : ℕ) : ℕ := (pyRound ((d * S : ℚ) / m)).toNat

/-- The content dimensions `(new_height, new_width)` after the conditional
resize: scaled by `S / max(H, W)` when either raw dimension is at least `S`,
unchanged otherwise. -/
def newDims (H W S : ℕ) : ℕ × ℕ :=
  if S ≤ H ∨ S ≤ W then (scaleDim H (max H W) S, scaleDim W (max H W) S)
  else (H, W)

/-- A zero-filled `S`-by-`S` canvas with the content copied to the top-left
corner `[0:nh, 0:nw]` (`np.zeros` plus the slice assignment of the source;
`d` is the zero pixel of the buffer's element type). -/
def padCanvas (content : Grid α) (d : α) (nh nw S : ℕ) : Grid α :=
  (List.range S).map (fun i => (List.range S).map (fun j =>
    if i < nh ∧ j < nw then (content.getD i []).getD j d else d))

/-- Nearest-neighbor resampling to `nh` by `nw`: every output pixel selects
one input pixel, the floor of the scaled coordinate, clamped. Models both
`cv2.resize(..., INTER_NEAREST)` and order-0 `scipy.ndimage.zoom` (the
claims under verification do not depend on which input pixel a nearest
resampler selects, only on its being a pure pixel selection of the stated
output shape). -/
def resizeNN (src : Grid α) (d : α) (nh nw : ℕ) : Grid α :=
  let H := src.length
  let W := (src.headD []).length
  (List.range nh).map (fun i => (List.range nw).map (fun j =>
    (src.getD (min (i * H / nh) (H - 1)) []).getD (min (j * W / nw) (W - 1)) d))

/-- Rounded mean of a list of byte values. -/
def areaAvg (vals : List ℕ) : ℕ :=
  if vals.length = 0 then 0 else (vals.sum + vals.length / 2) / vals.length

/-- Area resampling to `nh` by `nw`: every output pixel averages the block
of input pixels its footprint covers, per channel. Models
`cv2.resize(..., INTER_AREA)`; the claims under verification do not depend
on its pixel values, only on its output shape. -/
def resizeArea (src : Grid (List ℕ)) (nh nw : ℕ) : Grid (List ℕ) :=
  let H := src.length
  let W := (src.headD []).length
  (List.range nh).map (fun i => (List.range nw).map (fun j =>
    let r0 := i * H / nh
    let r1 := max ((i + 1) * H / nh) (r0 + 1)
    let c0 := j * W / nw
    let c1 := max ((j + 1) * W / nw) (c0 + 1)
    let block := ((src.drop r0).take (r1 - r0)).flatMap
      (fun row => (row.drop c0).take (c1 - c0))
    [areaAvg (block.map (fun p => p.getD 0 0)),
      areaAvg (block.map (fun p => p.getD 1 0)),
      areaAvg (block.map (fun p => p.getD 2 0))]))

/-- `TopLeftPad.process_data` after the files are read and the image is
channel-normalized: conditional resize by `S / max(H, W)` (image area,
mask nearest), zero-filled canvas with content at the top left, normalize
the image canvas and color-decode the mask canvas, returned as one-element
lists. -/
def topLeftPadProcess (img mask : Grid (List ℕ)) (S : ℕ) :
    Except String (List (Grid (List ℚ)) × List (Grid ℕ)) :=
  let H := img.length
  let W := (img.headD []).length
  let nd := newDims H W S
  let img2 := if S ≤ H ∨ S ≤ W then resizeArea img nd.1 nd.2 else img
  let mask2 := if S ≤ H ∨ S ≤ W then resizeNN mask [0, 0, 0] nd.1 nd.2 else mask
  let pimg := padCanvas img2 [0, 0, 0] nd.1 nd.2 S
  let pmask := padCanvas mask2 [0, 0, 0] nd.1 nd.2 S
  (tlpApplyColorMap pmask).map (fun dm => ([normImage pimg], [dm]))

/-- The padded image canvas of `TopLeftPad.process_data`, before
normalization. -/
def tlpPaddedImg (img : Grid (List ℕ)) (S : ℕ) : Grid (List ℕ) :=
  let H := img.length
  let W := (img.headD []).length
  let nd := newDims H W S
  padCanvas (if S ≤ H ∨ S ≤ W then resizeArea img nd.1 nd.2 else img)
    [0, 0, 0] nd.1 nd.2 S

/-- The padded mask canvas of `TopLeftPad.process_data`, before decoding
(the resize condition and the new dimensions come from the image). -/
def tlpPaddedMask (img mask : Grid (List ℕ)) (S : ℕ) : Grid (List ℕ) :=
  let H := img.length
  let W := (img.headD []).length
  let nd := newDims H W S
  padCanvas (if S ≤ H ∨ S ≤ W then resizeNN mask [0, 0, 0] nd.1 nd.2 else mask)
    [0, 0, 0] nd.1 nd.2 S

/-! ## ResizeCrop (IWDataset) -/

/-- `cv2.cvtColor(..., COLOR_RGB2GRAY)` on one RGB pixel: OpenCV fixed-point
luminance, `(4899*R + 9617*G + 1868*B + (1 << 13)) >> 14`. -/
def rgb2gray (p : List ℕ) : ℕ :=
  (4899 * p.getD 0 0 + 9617 * p.getD 1 0 + 1868 * p.getD 2 0 + 8192) / 16384

/-- The binarize step of `IWDataset.process_data`:
`cv2.threshold(gray, 128, 255, THRESH_BINARY)` (255 where the gray value is
strictly greater than 128, else 0) followed by `cv2.merge` back to three
identical channels. -/
def binPix3 (p : List ℕ) : List ℕ :=
  if 128 < rgb2gray p then [255, 255, 255] else [0, 0, 0]

/-- Binarize a whole mask pixelwise. -/
def binarizeMask (m : Grid (List ℕ)) : Grid (List ℕ) :=
  m.map (fun row => row.map binPix3)

/-- Clamp a signed index into `[0, n)`. -/
def clampIdx (x : ℤ) (n : ℕ) : ℕ :=
  if x < 0 then 0 else min x.toNat (n - 1)

/-- One channel value of a grid of pixels, 0 outside the buffer. -/
def pixChan (src : Grid (List ℕ)) (r c ch : ℕ) : ℕ :=
  ((src.getD r []).getD c []).getD ch 0

/-- The half-pixel-centered source coordinate of destination index `dst`
when resampling `n` samples to `out`. -/
def srcCoord (dst n out : ℕ) : ℚ := ((dst : ℚ) + 1 / 2) * n / out - 1 / 2

/-- Bilinear resampling to `nh` by `nw`, channels rounded back to bytes.
Models `cv2.resize(..., INTER_LINEAR)`; the claims under verification do
not depend on its pixel values. -/
def resizeLinear (src : Grid (List ℕ)) (nh nw : ℕ) : Grid (List ℕ) :=
  let H := src.length
  let W := (src.headD []).length
  (List.range nh).map (fun i => (List.range nw).map (fun j =>
    let y := srcCoord i H nh
    let x := srcCoord j W nw
    let fy := y - ⌊y⌋
    let fx := x - ⌊x⌋
    let r0 := clampIdx ⌊y⌋ H
    let r1 := clampIdx (⌊y⌋ + 1) H
    let c0 := clampIdx ⌊x⌋ W
    let c1 := clampIdx (⌊x⌋ + 1) W
    (List.range 3).map (fun ch =>
      let v : ℚ := (1 - fy) * ((1 - fx) * pixChan src r0 c0 ch
          + fx * pixChan src r0 c1 ch)
        + fy * ((1 - fx) * pixChan src r1 c0 ch + fx * pixChan src r1 c1 ch)
      (pyRound v).toNat)))

/-- The image half of `IWDataset.process_data`: resize to `S` by `S` with
linear interpolation, scale to [0,1] and normalize. -/
def iwProcessImage (img : Grid (List ℕ)) (S : ℕ) : Grid (List ℚ) :=
  normImage (resizeLinear img S S)

/-- The mask half of `IWDataset.process_data` as the source orders it:
binarize, color-decode the binarized mask, and only then zoom the resulting
class-index mask to `S` by `S` with order-0 (nearest) resampling. -/
def iwMaskCode (maskPath : String) (m : Grid (List ℕ)) (S : ℕ) :
    Except IWError (Grid ℕ) :=
  match iwApplyColorMap maskPath (binarizeMask m) with
  | Except.ok g => Except.ok (resizeNN g 0 S S)
  | Except.error e => Except.error e

/-- Modelled from the spec (the reference sequence of its ResizeCrop
section, for comparison with `iwMaskCode`): binarize the raw mask via the
luminance-128 threshold, re-expand to 3 channels, resize the mask to `S` by
`S` with nearest-neighbor interpolation, and only then apply color
decoding. -/
def iwMaskSpec (maskPath : String) (m : Grid (List ℕ)) (S : ℕ) :
    Except IWError (Grid ℕ) :=
  iwApplyColorMap maskPath (resizeNN (binarizeMask m) [0, 0, 0] S S)

/-- `IWDataset.process_data`, post file reads: one sample per input,
normalized resized image paired with the binarized, decoded and zoomed
mask. -/
def iwProcess (maskPath : String) (img mask : Grid (List ℕ)) (S : ℕ) :
    Except IWError (List (Grid (List ℚ) × Grid ℕ)) :=
  (iwMaskCode maskPath mask S).map (fun dm => [(iwProcessImage img S, dm)])

/-- Pixel access with a default, `g[i][j]`. -/
def getPix (g : Grid α) (d : α) (i j : ℕ) : α :=
  (g.getD i []).getD j d

/-! ## Decoder lemmas -/

lemma isSome_decodePix_eq (p : List ℕ) (h : (decodePix p).isSome = true) :
    decodePix p = some (decodeRefPix p) := by
  cases hd : decodePix p with
  | none => rw [hd] at h; simp at h
  | some v => simp [decodeRefPix, hd]

lemma mapM_opt_eq_some {α β : Type} (l : List α) (F : α → Option β)
    (G : α → β) (h : ∀ a ∈ l, F a = some (G a)) :
    l.mapM F = some (l.map G) := by
  induction l with
  | nil => rfl
  | cons a as ih =>
      rw [List.mapM_cons, h a (List.mem_cons_self a as),
        ih (fun x hx => h x (List.mem_cons_of_mem a hx))]
      rfl

lemma mapM_opt_isSome {α β : Type} (l : List α) (F : α → Option β)
    (h : (l.mapM F).isSome = true) : ∀ a ∈ l, (F a).isSome = true := by
  induction l with
  | nil => simp
  | cons a as ih =>
      intro x hx
      rw [List.mapM_cons] at h
      cases ha : F a with
      | none => rw [ha] at h; simp at h
      | some b =>
          rw [ha] at h
          cases has : as.mapM F with
          | none => rw [has] at h; simp at h
          | some bs =>
              rcases List.mem_cons.1 hx with rfl | hx2
              · simp [ha]
              · exact ih (by rw [has]; rfl) x hx2

lemma nested_mapM_eq_some (m : Grid (List ℕ)) (h : maskKnown m) :
    m.mapM (fun row => row.mapM decodePix) =
      some (m.map (fun row => row.map decodeRefPix)) := by
  refine mapM_opt_eq_some m _ _ (fun row hrow => ?_)
  exact mapM_opt_eq_some row _ _
    (fun p hp => isSome_decodePix_eq p (h row hrow p hp))

lemma nested_mapM_eq_none (m : Grid (List ℕ)) (h : ¬ maskKnown m) :
    m.mapM (fun row => row.mapM decodePix) = none := by
  cases hm : m.mapM (fun row => row.mapM decodePix) with
  | none => rfl
  | some g =>
      exfalso
      apply h
      intro row hrow p hp
      have h1 := mapM_opt_isSome m _ (by rw [hm]; rfl) row hrow
      exact mapM_opt_isSome row _ h1 p hp

lemma fsApplyColorMap_ok (m : Grid (List ℕ)) (h : maskKnown m) :
    fsApplyColorMap m = Except.ok (decodeRef m) := by
  rw [fsApplyColorMap, nested_mapM_eq_some m h]; rfl

lemma iwApplyColorMap_ok (path : String) (m : Grid (List ℕ))
    (h : maskKnown m) :
    iwApplyColorMap path m = Except.ok (decodeRef m) := by
  rw [iwApplyColorMap, nested_mapM_eq_some m h]; rfl

lemma iwApplyColorMap_error_first_unknown (path : String)
    (m : Grid (List ℕ)) (h : ¬ maskKnown m)
    (hfirst : decodePix ((m.flatMap (fun row => row)).headD []) = none) :
    iwApplyColorMap path m =
      Except.error (IWError.unknownColors path
        (sortedDedup (maskOffenders m))) := by
  rw [iwApplyColorMap, nested_mapM_eq_none m h]
  have hcond : ¬ ((decodePix ((m.flatMap (fun row => row)).headD [])).isSome
      = true) := by
    rw [hfirst]
    simp
  rw [if_neg hcond]

lemma iwApplyColorMap_error_mixed (path : String) (m : Grid (List ℕ))
    (h : ¬ maskKnown m)
    (hfirst : (decodePix ((m.flatMap (fun row => row)).headD [])).isSome
      = true) :
    iwApplyColorMap path m = Except.error IWError.typeError := by
  rw [iwApplyColorMap, nested_mapM_eq_none m h, if_pos hfirst]

lemma tlpPixVal_eq (p : List ℕ) :
    tlpPixVal p = ((decodePix p).map (fun v => (v : ℤ))).getD (-1) := by
  by_cases h1 : encPix p = 0
  · have e1 : (encPix p == 0) = true := beq_iff_eq.mpr h1
    simp [tlpPixVal, decodePix, colorToIndex, List.lookup, e1, h1]
  · have e1 : (encPix p == 0) = false := beq_eq_false_iff_ne.mpr h1
    by_cases h2 : encPix p = 16777215
    · have e2 : (encPix p == 16777215) = true := beq_iff_eq.mpr h2
      simp [tlpPixVal, decodePix, colorToIndex, List.lookup, e1, e2, h1, h2]
    · have e2 : (encPix p == 16777215) = false := beq_eq_false_iff_ne.mpr h2
      simp [tlpPixVal, decodePix, colorToIndex, List.lookup, e1, e2, h1, h2]

lemma tlpApplyColorMap_ok (m : Grid (List ℕ)) (h : maskKnown m) :
    tlpApplyColorMap m = Except.ok (decodeRef m) := by
  rw [tlpApplyColorMap]
  have hno : (m.map (fun row => row.map tlpPixVal)).any
      (fun row => row.any (fun v => v == -1)) = false := by
    rw [List.any_eq_false]
    intro row hrow
    rw [Bool.not_eq_true, List.any_eq_false]
    intro v hv
    rw [Bool.not_eq_true]
    obtain ⟨row0, hrow0, rfl⟩ := List.mem_map.1 hrow
    obtain ⟨p, hp, rfl⟩ := List.mem_map.1 hv
    rw [tlpPixVal_eq, isSome_decodePix_eq p (h row0 hrow0 p hp)]
    simp
  rw [hno]
  simp only [Bool.false_eq_true, if_false, decodeRef, List.map_map]
  congr 1
  refine List.map_congr_left (fun row hrow => ?_)
  simp only [Function.comp, List.map_map]
  refine List.map_congr_left (fun p hp => ?_)
  simp only [Function.comp]
  rw [tlpPixVal_eq, isSome_decodePix_eq p (h row hrow p hp)]
  simp [decodeRefPix]

lemma tlpApplyColorMap_error (m : Grid (List ℕ)) (h : ¬ maskKnown m) :
    tlpApplyColorMap m =
      Except.error "Found unknown pixel values in mask!" := by
  rw [tlpApplyColorMap]
  have hyes : (m.map (fun row => row.map tlpPixVal)).any
      (fun row => row.any (fun v => v == -1)) = true := by
    rw [maskKnown] at h
    push_neg at h
    obtain ⟨row, hrow, p, hp, hbad⟩ := h
    have hnone : decodePix p = none := by
      cases hd : decodePix p with
      | none => rfl
      | some v => rw [hd] at hbad; simp at hbad
    rw [List.any_eq_true]
    refine ⟨row.map tlpPixVal, List.mem_map_of_mem _ hrow, ?_⟩
    rw [List.any_eq_true]
    refine ⟨tlpPixVal p, List.mem_map_of_mem _ hp, ?_⟩
    rw [tlpPixVal_eq, hnone]
    rfl
  rw [hyes]
  rfl

/-! ## Tiling lemmas -/

lemma pyRange_length (stop step : ℕ) :
    (pyRange stop step).length =
      if step = 0 then 0 else (stop + step - 1) / step := by
  unfold pyRange
  split <;> simp

lemma mem_pyRange_lt {x stop step : ℕ} (h : x ∈ pyRange stop step) :
    x < stop := by
  unfold pyRange at h
  split at h
  · simp at h
  · rename_i hstep
    obtain ⟨k, hk, rfl⟩ := List.mem_map.1 h
    rw [List.mem_range] at hk
    have h1 : (k + 1) * step ≤ ((stop + step - 1) / step) * step :=
      Nat.mul_le_mul_right step hk
    have h2 : ((stop + step - 1) / step) * step ≤ stop + step - 1 :=
      Nat.div_mul_le_self _ _
    have h3 : k * step + step ≤ stop + step - 1 := by
      rw [Nat.succ_mul] at h1
      omega
    have hs : 1 ≤ step := Nat.one_le_iff_ne_zero.mpr hstep
    omega

lemma pyRange_ne_nil {stop step : ℕ} (hstop : 1 ≤ stop) (hstep : 1 ≤ step) :
    1 ≤ (pyRange stop step).length := by
  rw [pyRange_length, if_neg (by omega)]
  rw [Nat.le_div_iff_mul_le (by omega)]
  omega

lemma tileOrigins_length (H W S : ℕ) :
    (tileOrigins H W S).length =
      (pyRange (H - S + 1) (S / 2)).length *
        (pyRange (W - S + 1) (S / 2)).length := by
  unfold tileOrigins
  rw [List.length_flatMap]
  simp only [Function.comp_def, List.length_map]
  rw [List.map_const', List.sum_replicate, smul_eq_mul]

lemma mem_tileOrigins {rc : ℕ × ℕ} {H W S : ℕ}
    (h : rc ∈ tileOrigins H W S) (hH : S ≤ H) (hW : S ≤ W) :
    rc.1 + S ≤ H ∧ rc.2 + S ≤ W := by
  unfold tileOrigins at h
  rw [List.mem_flatMap] at h
  obtain ⟨r, hr, hmem⟩ := h
  obtain ⟨c, hc, rfl⟩ := List.mem_map.1 hmem
  have h1 := mem_pyRange_lt hr
  have h2 := mem_pyRange_lt hc
  constructor <;> simp <;> omega

lemma mem_take_drop {l : List α} {x : α} {n k : ℕ}
    (h : x ∈ (l.drop n).take k) : x ∈ l :=
  ((List.take_sublist _ _).trans (List.drop_sublist _ _)).subset h

lemma crop2_maskKnown (mask : Grid (List ℕ)) (r c S : ℕ)
    (h : maskKnown mask) : maskKnown (crop2 mask r c S) := by
  intro row hrow p hp
  obtain ⟨row0, hrow0, rfl⟩ := List.mem_map.1 hrow
  exact h row0 (mem_take_drop hrow0) p (mem_take_drop hp)

lemma except_mapM_eq_ok {ε α β : Type} (l : List α) (F : α → Except ε β)
    (G : α → β) (h : ∀ a ∈ l, F a = Except.ok (G a)) :
    l.mapM F = Except.ok (l.map G) := by
  induction l with
  | nil => rfl
  | cons a as ih =>
      rw [List.mapM_cons, h a (List.mem_cons_self a as),
        ih (fun x hx => h x (List.mem_cons_of_mem a hx))]
      rfl

lemma except_mapM_error {ε α β : Type} (l : List α) (F : α → Except ε β)
    (e : ε) (h : l.mapM F = Except.error e) : ∃ a ∈ l, F a = Except.error e := by
  induction l with
  | nil =>
      exfalso
      rw [show ([] : List α).mapM F = Except.ok [] from rfl] at h
      exact Except.noConfusion h
  | cons a as ih =>
      rw [List.mapM_cons] at h
      cases ha : F a with
      | error e1 =>
          rw [ha] at h
          have h2 : (Except.error e1 : Except ε (List β)) = Except.error e := h
          have h3 : e1 = e := by injection h2
          exact ⟨a, List.mem_cons_self a as, by rw [ha, h3]⟩
      | ok b =>
          rw [ha] at h
          cases has : as.mapM F with
          | error e2 =>
              rw [has] at h
              have h2 : (Except.error e2 : Except ε (List β)) = Except.error e := h
              have he : e2 = e := by injection h2
              obtain ⟨x, hx, hfx⟩ := ih (by rw [has, he])
              exact ⟨x, List.mem_cons_of_mem a hx, hfx⟩
          | ok bs =>
              rw [has] at h
              exact Except.noConfusion h

lemma fsApplyColorMap_error_shape {m : Grid (List ℕ)} {e : FSError}
    (h : fsApplyColorMap m = Except.error e) :
    e = FSError.unknownColors ∨ e = FSError.typeError := by
  rw [fsApplyColorMap] at h
  cases hm : m.mapM (fun row => row.mapM decodePix) with
  | none =>
      rw [hm] at h
      have h' : (if (decodePix ((m.flatMap (fun row => row)).headD
            [])).isSome = true
          then (Except.error FSError.typeError : Except FSError (Grid ℕ))
          else Except.error FSError.unknownColors) = Except.error e := h
      split at h'
      · have h2 : FSError.typeError = e := by injection h'
        exact Or.inr h2.symm
      · have h2 : FSError.unknownColors = e := by injection h'
        exact Or.inl h2.symm
  | some g =>
      rw [hm] at h
      exact Except.noConfusion h

lemma fsProcess_eq_ref (f : String) (img mask : Grid (List ℕ)) (S : ℕ)
    (hH : S ≤ img.length) (hW : S ≤ (img.headD []).length)
    (hm : maskKnown mask) :
    fsProcess f img mask S = Except.ok (fsTilesRef img mask S) := by
  rw [fsProcess, fsTilesRef]
  rw [if_neg (by omega)]
  refine except_mapM_eq_ok _ _ _ (fun rc _ => ?_)
  rw [fsApplyColorMap_ok _ (crop2_maskKnown mask rc.1 rc.2 S hm)]
  rfl

/-! ## Shape and pixel-access lemmas -/

lemma normPixFrom_length (c : ℕ) (p : List ℕ) :
    (normPixFrom c p).length = p.length := by
  induction p generalizing c with
  | nil => rfl
  | cons v rest ih => simp [normPixFrom, ih]

lemma normPix_length (p : List ℕ) : (normPix p).length = p.length :=
  normPixFrom_length 0 p

lemma headD_mem {l : Grid α} (h : l ≠ []) : l.headD [] ∈ l := by
  cases l with
  | nil => exact absurd rfl h
  | cons a as => exact List.mem_cons_self a as

lemma getD_map_row (f : α → β) (row : List α) (d : α) (j : ℕ) :
    (row.map f).getD j (f d) = f (row.getD j d) := by
  rw [List.getD_eq_getElem?_getD, List.getD_eq_getElem?_getD,
    List.getElem?_map]
  cases row[j]? <;> rfl

lemma getPix_mapGrid (f : α → β) (g : Grid α) (d : α) (i j : ℕ) :
    getPix (g.map (fun row => row.map f)) (f d) i j = f (getPix g d i j) := by
  unfold getPix
  simp only [List.getD_eq_getElem?_getD, List.getElem?_map]
  cases g[i]? with
  | none => rfl
  | some row =>
      simp only [Option.map_some', Option.getD_some, List.getElem?_map]
      cases row[j]? <;> rfl

lemma normImage_getPix (g : Grid (List ℕ)) (i j : ℕ) :
    getPix (normImage g) [] i j = normPix (getPix g [] i j) :=
  getPix_mapGrid normPix g [] i j

lemma crop2_getPix (g : Grid α) (d : α) (r c S a b : ℕ)
    (ha : a < S) (hb : b < S) :
    getPix (crop2 g r c S) d a b = getPix g d (r + a) (c + b) := by
  unfold crop2 getPix
  simp only [List.getD_eq_getElem?_getD, List.getElem?_map]
  have h1 : (List.take S (List.drop r g))[a]? = g[r + a]? := by
    rw [List.getElem?_take, if_pos ha, List.getElem?_drop]
  rw [h1]
  cases g[r + a]? with
  | none => rfl
  | some row =>
      simp only [Option.map_some', Option.getD_some]
      have h2 : (List.take S (List.drop c row))[b]? = row[c + b]? := by
        rw [List.getElem?_take, if_pos hb, List.getElem?_drop]
      rw [h2]

lemma crop2_length (g : Grid α) (r c S : ℕ) (h : r + S ≤ g.length) :
    (crop2 g r c S).length = S := by
  unfold crop2
  rw [List.length_map, List.length_take, List.length_drop]
  omega

lemma crop2_row_length {g : Grid α} {W : ℕ} {row : List α} {r c S : ℕ}
    (hrows : ∀ row0 ∈ g, row0.length = W) (hc : c + S ≤ W)
    (hrow : row ∈ crop2 g r c S) : row.length = S := by
  obtain ⟨row0, hrow0, rfl⟩ := List.mem_map.1 hrow
  rw [List.length_take, List.length_drop, hrows row0 (mem_take_drop hrow0)]
  omega

lemma normImage_crop_shape (img : Grid (List ℕ)) (W r c S : ℕ)
    (hrows : ∀ row ∈ img, row.length = W ∧ ∀ p ∈ row, p.length = 3)
    (hr : r + S ≤ img.length) (hc : c + S ≤ W) :
    (normImage (crop2 img r c S)).length = S ∧
      ∀ row ∈ normImage (crop2 img r c S), row.length = S ∧
        ∀ p ∈ row, p.length = 3 := by
  constructor
  · rw [normImage, List.length_map]
    exact crop2_length img r c S hr
  · intro row hrow
    obtain ⟨row0, hrow0, rfl⟩ := List.mem_map.1 hrow
    constructor
    · rw [List.length_map]
      exact crop2_row_length (fun x hx => (hrows x hx).1) hc hrow0
    · intro p hp
      obtain ⟨p0, hp0, rfl⟩ := List.mem_map.1 hp
      obtain ⟨orig, horig, rfl⟩ := List.mem_map.1 hrow0
      rw [normPix_length]
      exact (hrows orig (mem_take_drop horig)).2 p0 (mem_take_drop hp0)

/-! ## Claim C2: tiling count, shape and order -/

/-- Claim C2: for every image of size H by W with H >= S and W >= S
processed in Tiling mode with tile size S (and a mask whose colors are all
in the color map, so that processing completes), the samples produced are
exactly the row-major reference tile list, their number equals
len(range(0, H-S+1, S//2)) * len(range(0, W-S+1, S//2)), and every produced
image tile has shape (S, S, 3). -/
theorem tiling_count_shape_order (f : String) (img mask : Grid (List ℕ))
    (H W S : ℕ) (hlen : img.length = H)
    (hrows : ∀ row ∈ img, row.length = W ∧ ∀ p ∈ row, p.length = 3)
    (hS : 2 ≤ S) (hH : S ≤ H) (hW : S ≤ W) (hm : maskKnown mask) :
    fsProcess f img mask S = Except.ok (fsTilesRef img mask S) ∧
    (fsTilesRef img mask S).length =
      (pyRange (H - S + 1) (S / 2)).length *
        (pyRange (W - S + 1) (S / 2)).length ∧
    ∀ t ∈ fsTilesRef img mask S, t.1.length = S ∧
      ∀ row ∈ t.1, row.length = S ∧ ∀ p ∈ row, p.length = 3 := by
  have h0 : img ≠ [] := by
    intro he
    rw [he] at hlen
    simp at hlen
    omega
  have hW' : (img.headD []).length = W := (hrows _ (headD_mem h0)).1
  refine ⟨?_, ?_, ?_⟩
  · exact fsProcess_eq_ref f img mask S (by rw [hlen]; exact hH)
      (by rw [hW']; exact hW) hm
  · rw [fsTilesRef, List.length_map, hlen, hW', tileOrigins_length]
  · intro t ht
    rw [fsTilesRef, hlen, hW'] at ht
    obtain ⟨rc, hrc, rfl⟩ := List.mem_map.1 ht
    obtain ⟨h1, h2⟩ := mem_tileOrigins hrc hH hW
    exact normImage_crop_shape img W rc.1 rc.2 S hrows
      (by rw [hlen]; exact h1) h2

/-- Concrete 3 by 3 image for the C2 witness. -/
def c2img : Grid (List ℕ) := List.replicate 3 (List.replicate 3 [7, 8, 9])

/-- Concrete 3 by 3 all-background mask for the C2 witness. -/
def c2mask : Grid (List ℕ) := List.replicate 3 (List.replicate 3 [0, 0, 0])

/-- Witness for C2 at a concrete 3 by 3 image with S = 2. -/
theorem tiling_count_shape_order_witness :
    fsProcess "a.png" c2img c2mask 2 = Except.ok (fsTilesRef c2img c2mask 2) ∧
    (fsTilesRef c2img c2mask 2).length =
      (pyRange (3 - 2 + 1) (2 / 2)).length *
        (pyRange (3 - 2 + 1) (2 / 2)).length ∧
    ∀ t ∈ fsTilesRef c2img c2mask 2, t.1.length = 2 ∧
      ∀ row ∈ t.1, row.length = 2 ∧ ∀ p ∈ row, p.length = 3 :=
  tiling_count_shape_order "a.png" c2img c2mask 3 3 2 (by decide)
    (by decide) (by decide) (by decide) (by decide)
    (by unfold maskKnown; decide)

/-! ## Claim C3: the 300 by 300, S = 224 scenario -/

/-- Concrete 300 by 300 image for C3. -/
def c3img : Grid (List ℕ) := List.replicate 300 (List.replicate 300 [1, 2, 3])

/-- Concrete 300 by 300 all-foreground mask for C3. -/
def c3mask : Grid (List ℕ) :=
  List.replicate 300 (List.replicate 300 [255, 255, 255])

lemma c3mask_known : maskKnown c3mask := by
  intro row hrow p hp
  have h1 := List.eq_of_mem_replicate
    (show row ∈ List.replicate 300 (List.replicate 300 [255, 255, 255])
      from hrow)
  subst h1
  have h2 := List.eq_of_mem_replicate hp
  subst h2
  decide

/-- Counterexample to Claim C3 as stated: with a 300 by 300 image and
S = 224 the stride is 112 but `range(0, 300-224+1, 112) = range(0, 77, 112)
= [0]`, not `[0, 76]`, so the origins are `[(0,0)]`, not the four origins
the claim lists, and exactly 1 sample is produced, not 4. -/
theorem tiling_300_counterexample :
    tileOrigins 300 300 224 ≠ [(0, 0), (0, 76), (76, 0), (76, 76)] ∧
    (fsProcess "scene.png" c3img c3mask 224).map List.length =
      Except.ok 1 := by
  have hlen3 : c3img.length = 300 := by
    show (List.replicate 300 (List.replicate 300 [1, 2, 3])).length = 300
    rw [List.length_replicate]
  have hhead : (c3img.headD []).length = 300 := by
    have he : c3img.headD [] = List.replicate 300 [1, 2, 3] := rfl
    rw [he, List.length_replicate]
  constructor
  · decide
  · rw [fsProcess_eq_ref "scene.png" c3img c3mask 224
      (by rw [hlen3]; omega) (by rw [hhead]; omega) c3mask_known]
    have hl : (fsTilesRef c3img c3mask 224).length = 1 := by
      rw [fsTilesRef, List.length_map, hlen3, hhead]
      decide
    simp [Except.map, hl]

/-- Claim C3 (amended): a 300 by 300 image processed in Tiling mode with
S = 224 produces exactly 1 tile, at origin (0, 0) (stride 112,
`range(0, 300-224+1, 112) = [0]` on each axis), of shape (224, 224, 3). -/
theorem tiling_300_single_tile (f : String) (img mask : Grid (List ℕ))
    (hlen : img.length = 300)
    (hrows : ∀ row ∈ img, row.length = 300 ∧ ∀ p ∈ row, p.length = 3)
    (hm : maskKnown mask) :
    tileOrigins 300 300 224 = [(0, 0)] ∧
    fsProcess f img mask 224 = Except.ok (fsTilesRef img mask 224) ∧
    (fsTilesRef img mask 224).length = 1 ∧
    ∀ t ∈ fsTilesRef img mask 224, t.1.length = 224 ∧
      ∀ row ∈ t.1, row.length = 224 ∧ ∀ p ∈ row, p.length = 3 := by
  have h0 : img ≠ [] := by
    intro he
    rw [he] at hlen
    simp at hlen
  have hW' : (img.headD []).length = 300 := (hrows _ (headD_mem h0)).1
  refine ⟨by decide, ?_, ?_, ?_⟩
  · exact fsProcess_eq_ref f img mask 224 (by omega) (by omega) hm
  · rw [fsTilesRef, List.length_map, hlen, hW']
    decide
  · intro t ht
    rw [fsTilesRef, hlen, hW'] at ht
    obtain ⟨rc, hrc, rfl⟩ := List.mem_map.1 ht
    obtain ⟨h1, h2⟩ := mem_tileOrigins hrc (by omega) (by omega)
    exact normImage_crop_shape img 300 rc.1 rc.2 224 hrows (by omega) h2

/-- Witness for the amended C3 at a concrete 300 by 300 image. -/
theorem tiling_300_single_tile_witness :
    tileOrigins 300 300 224 = [(0, 0)] ∧
    fsProcess "b.png" c3img c3mask 224 =
      Except.ok (fsTilesRef c3img c3mask 224) ∧
    (fsTilesRef c3img c3mask 224).length = 1 ∧
    ∀ t ∈ fsTilesRef c3img c3mask 224, t.1.length = 224 ∧
      ∀ row ∈ t.1, row.length = 224 ∧ ∀ p ∈ row, p.length = 3 :=
  tiling_300_single_tile "b.png" c3img c3mask
    (by
      show (List.replicate 300 (List.replicate 300 [1, 2, 3])).length = 300
      rw [List.length_replicate])
    (by
      intro row hrow
      have h1 := List.eq_of_mem_replicate
        (show row ∈ List.replicate 300 (List.replicate 300 [1, 2, 3])
          from hrow)
      subst h1
      refine ⟨by rw [List.length_replicate], ?_⟩
      intro p hp
      have h2 := List.eq_of_mem_replicate hp
      subst h2
      rfl)
    c3mask_known

/-! ## Claim C7: the too-small error is exactly the small-dimension case -/

/-- Claim C7: in Tiling mode, processing fails with the too-small error
exactly when H < S or W < S; when both dimensions are at least S (and the
mask colors are known so that decoding succeeds), no error is raised and at
least one tile is produced. Tile sizes below 2 are excluded: there
`S // 2 = 0` and the Python range itself raises. -/
theorem tiling_too_small_iff (f : String) (img mask : Grid (List ℕ))
    (S : ℕ) (hS : 2 ≤ S) :
    ((img.length < S ∨ (img.headD []).length < S) ↔
      fsProcess f img mask S = Except.error (FSError.tooSmall f S)) ∧
    (S ≤ img.length → S ≤ (img.headD []).length → maskKnown mask →
      fsProcess f img mask S = Except.ok (fsTilesRef img mask S) ∧
        1 ≤ (fsTilesRef img mask S).length) := by
  constructor
  · constructor
    · intro h
      rw [fsProcess, if_pos h]
    · intro h
      by_contra hcond
      obtain ⟨h1, h2⟩ := not_or.1 hcond
      rw [fsProcess, if_neg hcond] at h
      obtain ⟨rc, hrc, hfr⟩ := except_mapM_error _ _ _ h
      cases hca : fsApplyColorMap (crop2 mask rc.1 rc.2 S) with
      | ok dm =>
          rw [hca] at hfr
          exact Except.noConfusion hfr
      | error e =>
          rw [hca] at hfr
          have h3 : (Except.error e : Except FSError (Grid (List ℚ) × Grid ℕ)) =
              Except.error (FSError.tooSmall f S) := hfr
          have he : e = FSError.tooSmall f S := by injection h3
          have hu := fsApplyColorMap_error_shape hca
          rcases hu with hu | hu <;> rw [hu] at he <;>
            exact FSError.noConfusion he
  · intro h1 h2 hm
    refine ⟨fsProcess_eq_ref f img mask S h1 h2 hm, ?_⟩
    rw [fsTilesRef, List.length_map, tileOrigins_length]
    have ha := @pyRange_ne_nil (img.length - S + 1) (S / 2)
      (by omega) (by omega)
    have hb := @pyRange_ne_nil ((img.headD []).length - S + 1) (S / 2)
      (by omega) (by omega)
    exact Nat.one_le_iff_ne_zero.mpr (Nat.mul_ne_zero (by omega) (by omega))

/-- Concrete 2 by 2 image for the C7 witness. -/
def c7img : Grid (List ℕ) := [[[1, 1, 1], [2, 2, 2]], [[3, 3, 3], [4, 4, 4]]]

/-- Concrete 2 by 2 mask for the C7 witness. -/
def c7mask : Grid (List ℕ) :=
  [[[0, 0, 0], [255, 255, 255]], [[255, 255, 255], [0, 0, 0]]]

/-- Witness for C7 at a concrete 2 by 2 image with S = 2. -/
theorem tiling_too_small_iff_witness :
    ((c7img.length < 2 ∨ (c7img.headD []).length < 2) ↔
      fsProcess "w.png" c7img c7mask 2 =
        Except.error (FSError.tooSmall "w.png" 2)) ∧
    (2 ≤ c7img.length → 2 ≤ (c7img.headD []).length → maskKnown c7mask →
      fsProcess "w.png" c7img c7mask 2 =
          Except.ok (fsTilesRef c7img c7mask 2) ∧
        1 ≤ (fsTilesRef c7img c7mask 2).length) :=
  tiling_too_small_iff "w.png" c7img c7mask 2 (by decide)

/-! ## Claim C1: unknown-color failure and reporting -/

lemma mem_insertSorted {x y : ℕ} {l : List ℕ} :
    y ∈ insertSorted x l ↔ y = x ∨ y ∈ l := by
  induction l with
  | nil => simp [insertSorted]
  | cons a as ih =>
      rw [insertSorted]
      split
      · simp
      · rw [List.mem_cons, ih, List.mem_cons]
        tauto

lemma mem_sortAsc {y : ℕ} {l : List ℕ} : y ∈ sortAsc l ↔ y ∈ l := by
  induction l with
  | nil => simp [sortAsc]
  | cons a as ih =>
      rw [sortAsc, List.foldr_cons]
      rw [show List.foldr insertSorted [] as = sortAsc as from rfl] at *
      rw [mem_insertSorted, ih, List.mem_cons]

lemma mem_sortedDedup {y : ℕ} {l : List ℕ} : y ∈ sortedDedup l ↔ y ∈ l := by
  rw [sortedDedup, List.mem_dedup, mem_sortAsc]

lemma mem_maskOffenders {e : ℕ} {m : Grid (List ℕ)} :
    e ∈ maskOffenders m ↔
      ∃ row ∈ m, ∃ p ∈ row, encPix p = e ∧ decodePix p = none := by
  rw [maskOffenders, List.mem_filter]
  constructor
  · rintro ⟨hmem, hnone⟩
    obtain ⟨row, hrow, hmem2⟩ := List.mem_flatMap.1 hmem
    obtain ⟨p, hp, rfl⟩ := List.mem_map.1 hmem2
    refine ⟨row, hrow, p, hp, rfl, ?_⟩
    rw [decodePix]
    exact Option.isNone_iff_eq_none.1 hnone
  · rintro ⟨row, hrow, p, hp, rfl, hnone⟩
    refine ⟨List.mem_flatMap.2 ⟨row, hrow, List.mem_map_of_mem _ hp⟩, ?_⟩
    rw [decodePix] at hnone
    exact Option.isNone_iff_eq_none.2 hnone

/-- Claim C1 (amended): for every mask whose pixels all have packed colors
in the color map, both decoders succeed and return exactly the mapped class
of every pixel (no default is ever assigned), and for every mask with an
unknown pixel both decoders fail; but the failure is informative only in
one case. The IWDataset decoder reports the deduplicated (sorted) offending
packed values together with the mask path only when the first row-major
pixel is itself unknown (np.vectorize then infers an object dtype); when
the first pixel is known, np.vectorize fixes an integer dtype and the
decode dies with an uninformative TypeError, carrying neither the values
nor the path. The TopLeftPad decoder always raises a fixed generic error
that carries neither the offending values nor the path. -/
theorem unknown_color_reporting_amended (path : String)
    (m : Grid (List ℕ)) :
    (maskKnown m →
      iwApplyColorMap path m = Except.ok (decodeRef m) ∧
        tlpApplyColorMap m = Except.ok (decodeRef m)) ∧
    (¬ maskKnown m →
      (decodePix ((m.flatMap (fun row => row)).headD []) = none →
        iwApplyColorMap path m =
            Except.error (IWError.unknownColors path
              (sortedDedup (maskOffenders m))) ∧
          sortedDedup (maskOffenders m) ≠ [] ∧
          (sortedDedup (maskOffenders m)).Nodup ∧
          (∀ e, e ∈ sortedDedup (maskOffenders m) ↔
            ∃ row ∈ m, ∃ p ∈ row, encPix p = e ∧ decodePix p = none)) ∧
      ((decodePix ((m.flatMap (fun row => row)).headD [])).isSome = true →
        iwApplyColorMap path m = Except.error IWError.typeError) ∧
      tlpApplyColorMap m =
        Except.error "Found unknown pixel values in mask!") := by
  constructor
  · intro h
    exact ⟨iwApplyColorMap_ok path m h, tlpApplyColorMap_ok m h⟩
  · intro h
    refine ⟨?_, ?_, tlpApplyColorMap_error m h⟩
    · intro hfirst
      refine ⟨iwApplyColorMap_error_first_unknown path m h hfirst, ?_,
        List.nodup_dedup _,
        fun e => mem_sortedDedup.trans mem_maskOffenders⟩
      rw [maskKnown] at h
      push_neg at h
      obtain ⟨row, hrow, p, hp, hbad⟩ := h
      have hnone : decodePix p = none := by
        cases hd : decodePix p with
        | none => rfl
        | some v => rw [hd] at hbad; simp at hbad
      exact List.ne_nil_of_mem (mem_sortedDedup.2
        (mem_maskOffenders.2 ⟨row, hrow, p, hp, rfl, hnone⟩))
    · intro hfirst
      exact iwApplyColorMap_error_mixed path m h hfirst

/-- Counterexample to Claim C1 as stated: the TopLeftPad decoder raises the
same fixed error for masks with different unknown packed colors, so its
error reports neither the distinct offending packed values nor the source
file path; and the IWDataset decoder, on a mask whose first pixel is a
known color and whose second carries the unknown packed color 0x010203,
dies with the payload-free TypeError from inside np.vectorize instead of
the reporting error. -/
theorem unknown_color_reporting_counterexample :
    tlpApplyColorMap [[[1, 2, 3]]] =
      Except.error "Found unknown pixel values in mask!" ∧
    tlpApplyColorMap [[[9, 9, 9]]] =
      Except.error "Found unknown pixel values in mask!" ∧
    maskOffenders [[[1, 2, 3]]] ≠ maskOffenders [[[9, 9, 9]]] ∧
    iwApplyColorMap "m.png" [[[0, 0, 0], [1, 2, 3]]] =
      Except.error IWError.typeError := by
  refine ⟨rfl, rfl, by decide, rfl⟩

/-! ## ResizeCrop lemmas: binarization, decode, zoom -/

lemma binPix3_known (p : List ℕ) : (decodePix (binPix3 p)).isSome = true := by
  unfold binPix3
  split <;> decide

lemma maskKnown_binarize (m : Grid (List ℕ)) :
    maskKnown (binarizeMask m) := by
  intro row hrow p hp
  obtain ⟨row0, _, rfl⟩ := List.mem_map.1 hrow
  obtain ⟨p0, _, rfl⟩ := List.mem_map.1 hp
  exact binPix3_known p0

lemma getD_mem_or_default (L : List α) (b : ℕ) (d : α) :
    L.getD b d = d ∨ L.getD b d ∈ L := by
  by_cases h : b < L.length
  · right
    rw [List.getD_eq_getElem?_getD, List.getElem?_eq_getElem h,
      Option.getD_some]
    exact List.getElem_mem h
  · left
    exact List.getD_eq_default _ _ (le_of_not_lt h)

lemma pix_getD_cases (g : Grid α) (a b : ℕ) (d : α) :
    (g.getD a []).getD b d = d ∨ ∃ row ∈ g, (g.getD a []).getD b d ∈ row := by
  rcases getD_mem_or_default (g.getD a []) b d with h2 | h2
  · exact Or.inl h2
  · rcases getD_mem_or_default g a ([] : List α) with he | hmem
    · rw [he] at h2
      simp at h2
    · exact Or.inr ⟨g.getD a [], hmem, h2⟩

lemma maskKnown_resizeNN (g : Grid (List ℕ)) (nh nw : ℕ)
    (h : maskKnown g) : maskKnown (resizeNN g [0, 0, 0] nh nw) := by
  intro row hrow p hp
  simp only [resizeNN] at hrow
  obtain ⟨i, _, rfl⟩ := List.mem_map.1 hrow
  obtain ⟨j, _, rfl⟩ := List.mem_map.1 hp
  rcases pix_getD_cases g _ _ ([0, 0, 0] : List ℕ) with he | ⟨row0, hrow0, hmem⟩
  · rw [he]
    decide
  · exact h row0 hrow0 _ hmem

lemma headD_map_length (f : α → β) (g : Grid α) :
    ((g.map (fun row => row.map f)).headD []).length = (g.headD []).length := by
  cases g <;> simp

lemma resizeNN_map (f : α → β) (g : Grid α) (d : α) (nh nw : ℕ) :
    resizeNN (g.map (fun row => row.map f)) (f d) nh nw =
      (resizeNN g d nh nw).map (fun row => row.map f) := by
  simp only [resizeNN, List.length_map, headD_map_length, List.map_map]
  refine List.map_congr_left (fun i _ => ?_)
  simp only [Function.comp, List.map_map]
  refine List.map_congr_left (fun j _ => ?_)
  simp only [Function.comp]
  exact getPix_mapGrid f g d _ _

lemma decodeRef_resizeNN (g : Grid (List ℕ)) (S : ℕ) :
    decodeRef (resizeNN g [0, 0, 0] S S) =
      resizeNN (decodeRef g) 0 S S := by
  have h := resizeNN_map decodeRefPix g [0, 0, 0] S S
  rw [show decodeRefPix [0, 0, 0] = 0 from rfl] at h
  unfold decodeRef
  exact h.symm

/-! ## Claim C5: the binarize threshold -/

/-- Claim C5 (amended): in ResizeCrop mode, after the binarize step a mask
pixel decodes as the foreground class (1) exactly when its grayscale value
is strictly greater than 128, and as the background class (0) when it is at
most 128 — `cv2.threshold(gray, 128, 255, THRESH_BINARY)` whites out only
values strictly above the threshold, so a pixel with grayscale value
exactly 128 decodes as background, not foreground. -/
theorem binarize_threshold_amended (path : String) (m : Grid (List ℕ)) :
    iwApplyColorMap path (binarizeMask m) =
      Except.ok (m.map (fun row => row.map
        (fun p => if 128 < rgb2gray p then 1 else 0))) := by
  rw [iwApplyColorMap_ok path _ (maskKnown_binarize m)]
  congr 1
  unfold decodeRef binarizeMask
  rw [List.map_map]
  refine List.map_congr_left (fun row _ => ?_)
  simp only [Function.comp, List.map_map]
  refine List.map_congr_left (fun p _ => ?_)
  simp only [Function.comp]
  unfold binPix3
  by_cases hc : 128 < rgb2gray p
  · rw [if_pos hc, if_pos hc]
    rfl
  · rw [if_neg hc, if_neg hc]
    rfl

/-- Counterexample to Claim C5 as stated: the pixel (128, 128, 128) has
grayscale value exactly 128 (so the claim requires foreground, class 1),
yet the pipeline binarizes it to black and decodes it as background,
class 0. -/
theorem binarize_threshold_counterexample :
    rgb2gray [128, 128, 128] = 128 ∧
    iwApplyColorMap "m.png" (binarizeMask [[[128, 128, 128]]]) =
      Except.ok [[0]] ∧
    decodePix [255, 255, 255] = some 1 := by
  refine ⟨rfl, rfl, rfl⟩

/-! ## Claim C6: decode before or after the mask resize -/

/-- Claim C6: the mask pipeline of ResizeCrop equals the reference sequence
of the spec. The source decodes the binarized mask first and then zooms the
class-index mask with order-0 resampling; the spec words resize the
binarized 3-channel mask first and decode the resized mask. Because the
resize is a pure pixel selection and every binarized pixel (and the black
padding default) is a color-map key, the two pipelines agree on every
input. -/
theorem resizecrop_decode_after_resize (path : String) (m : Grid (List ℕ))
    (S : ℕ) : iwMaskSpec path m S = iwMaskCode path m S := by
  rw [iwMaskSpec,
    iwApplyColorMap_ok path _
      (maskKnown_resizeNN _ S S (maskKnown_binarize m)),
    iwMaskCode, iwApplyColorMap_ok path _ (maskKnown_binarize m),
    decodeRef_resizeNN]

/-! ## Claim C9: ResizeCrop never raises the unknown-color error -/

/-- Claim C9: after binarization every pixel is packed black (0x000000) or
packed white (0xFFFFFF), both keys of the color map, so the unknown-color
branch of ResizeCrop is unreachable: `IWDataset.process_data` never fails
with the unknown-color error, whatever RGB values the raw mask holds. -/
theorem resizecrop_no_unknown_color (path : String)
    (img m : Grid (List ℕ)) (S : ℕ) :
    (iwProcess path img m S).isOk = true ∧
    decodePix [0, 0, 0] = some 0 ∧ decodePix [255, 255, 255] = some 1 := by
  refine ⟨?_, rfl, rfl⟩
  rw [iwProcess, iwMaskCode,
    iwApplyColorMap_ok path _ (maskKnown_binarize m)]
  rfl

/-! ## PadCrop lemmas -/

lemma pyRound_le_int (q : ℚ) (n : ℤ) (h : q ≤ n) : pyRound q ≤ n := by
  have hf : ⌊q⌋ ≤ n := by
    have h2 := Int.floor_le_floor h
    rwa [Int.floor_intCast] at h2
  have key : ¬ (q - ⌊q⌋ < 1 / 2) → ⌊q⌋ + 1 ≤ n := by
    intro hge
    by_contra hn
    push_neg at hn
    have hfn : ⌊q⌋ = n := by omega
    push_neg at hge
    have h3 : (n : ℚ) + 1 / 2 ≤ q := by
      have h4 : ((⌊q⌋ : ℚ)) + 1 / 2 ≤ q := by linarith
      rwa [hfn] at h4
    linarith
  simp only [pyRound]
  by_cases h1 : q - ⌊q⌋ < 1 / 2
  · rw [if_pos h1]
    exact hf
  · rw [if_neg h1]
    by_cases h2 : 1 / 2 < q - ⌊q⌋
    · rw [if_pos h2]
      exact key h1
    · rw [if_neg h2]
      by_cases h3 : ⌊q⌋ % 2 = 0
      · rw [if_pos h3]
        exact hf
      · rw [if_neg h3]
        exact key h1

lemma pyRound_natCast (n : ℕ) : pyRound (n : ℚ) = n := by
  simp only [pyRound]
  rw [Int.floor_natCast]
  norm_num

lemma scaleDim_le (d m S : ℕ) (hdM : d ≤ m) (hM : 0 < m) :
    scaleDim d m S ≤ S := by
  rw [scaleDim, Int.toNat_le]
  apply pyRound_le_int
  have hM' : (0 : ℚ) < m := by exact_mod_cast hM
  rw [div_le_iff₀ hM']
  have hd : (d : ℚ) ≤ m := by exact_mod_cast hdM
  have hS : (0 : ℚ) ≤ S := by positivity
  push_cast
  nlinarith

lemma scaleDim_self (m S : ℕ) (hM : 0 < m) : scaleDim m m S = S := by
  rw [scaleDim]
  have hM' : (m : ℚ) ≠ 0 := by
    have : (0 : ℚ) < m := by exact_mod_cast hM
    exact ne_of_gt this
  rw [mul_comm, mul_div_assoc, div_self hM', mul_one, pyRound_natCast]
  simp

lemma getD_map_range (S i : ℕ) (f : ℕ → α) (d0 : α) (hi : i < S) :
    ((List.range S).map f).getD i d0 = f i := by
  rw [List.getD_eq_getElem?_getD, List.getElem?_map, List.getElem?_range hi]
  rfl

lemma padCanvas_length (g : Grid α) (d : α) (nh nw S : ℕ) :
    (padCanvas g d nh nw S).length = S := by
  rw [padCanvas, List.length_map, List.length_range]

lemma padCanvas_rows (g : Grid α) (d : α) (nh nw S : ℕ) :
    ∀ row ∈ padCanvas g d nh nw S, row.length = S := by
  intro row hrow
  simp only [padCanvas] at hrow
  obtain ⟨i, _, rfl⟩ := List.mem_map.1 hrow
  rw [List.length_map, List.length_range]

lemma padCanvas_getPix (g : Grid α) (d : α) (nh nw S i j : ℕ)
    (hi : i < S) (hj : j < S) :
    getPix (padCanvas g d nh nw S) d i j =
      if i < nh ∧ j < nw then getPix g d i j else d := by
  unfold getPix padCanvas
  rw [getD_map_range S i _ [] hi, getD_map_range S j _ d hj]

lemma maskKnown_padCanvas (g : Grid (List ℕ)) (nh nw S : ℕ)
    (h : maskKnown g) : maskKnown (padCanvas g [0, 0, 0] nh nw S) := by
  intro row hrow p hp
  simp only [padCanvas] at hrow
  obtain ⟨i, _, rfl⟩ := List.mem_map.1 hrow
  obtain ⟨j, _, rfl⟩ := List.mem_map.1 hp
  split
  · rcases pix_getD_cases g i j ([0, 0, 0] : List ℕ) with he | ⟨row0, hrow0, hmem⟩
    · rw [he]
      decide
    · exact h row0 hrow0 _ hmem
  · decide

/-! ## Claim C10: the padded content never overflows the canvas -/

/-- Claim C10: in PadCrop mode, for every input of size H by W, the content
dimensions after the conditional resize (including the round-half-to-even
of `int(round(dim * S / max(H, W)))`) satisfy new_height <= S and
new_width <= S, so the copy into the top-left of the S by S canvas is
always in bounds. -/
theorem padcrop_dims_bounded (H W S : ℕ) (hH : 0 < H) (hW : 0 < W) :
    (newDims H W S).1 ≤ S ∧ (newDims H W S).2 ≤ S := by
  rw [newDims]
  by_cases hc : S ≤ H ∨ S ≤ W
  · rw [if_pos hc]
    exact ⟨scaleDim_le H (max H W) S (le_max_left H W) (by omega),
      scaleDim_le W (max H W) S (le_max_right H W) (by omega)⟩
  · rw [if_neg hc]
    push_neg at hc
    exact ⟨by omega, by omega⟩

/-- Witness for C10 at H = 300, W = 200, S = 224. -/
theorem padcrop_dims_bounded_witness :
    (newDims 300 200 224).1 ≤ 224 ∧ (newDims 300 200 224).2 ≤ 224 :=
  padcrop_dims_bounded 300 200 224 (by decide) (by decide)

/-! ## Claim C4: PadCrop geometry -/

lemma tlpPaddedMask_known (img mask : Grid (List ℕ)) (S : ℕ)
    (hmk : maskKnown mask) : maskKnown (tlpPaddedMask img mask S) := by
  simp only [tlpPaddedMask]
  apply maskKnown_padCanvas
  split
  · exact maskKnown_resizeNN mask _ _ hmk
  · exact hmk

lemma topLeftPadProcess_eq (img mask : Grid (List ℕ)) (S : ℕ)
    (hmk : maskKnown mask) :
    topLeftPadProcess img mask S =
      Except.ok ([normImage (tlpPaddedImg img S)],
        [decodeRef (tlpPaddedMask img mask S)]) := by
  have hk := tlpPaddedMask_known img mask S hmk
  simp only [tlpPaddedMask] at hk
  simp only [topLeftPadProcess, tlpPaddedImg, tlpPaddedMask]
  rw [tlpApplyColorMap_ok _ hk]
  rfl

/-- Claim C4: in PadCrop mode exactly one sample pair is produced, image
and mask canvases are exactly S by S; when both raw dimensions are below S
no resize occurs and the original content sits at rows 0:H, columns 0:W of
a zero-filled canvas with the remainder zero; when either dimension is at
least S, both image (area interpolation) and mask (nearest-neighbor) are
resized by the single factor S / max(H, W), the longer side landing exactly
on S, before the top-left placement. -/
theorem padcrop_geometry (img mask : Grid (List ℕ)) (H W S : ℕ)
    (hlen : img.length = H) (hhead : (img.headD []).length = W)
    (hmk : maskKnown mask) (hH : 0 < H) (hW : 0 < W) :
    topLeftPadProcess img mask S =
      Except.ok ([normImage (tlpPaddedImg img S)],
        [decodeRef (tlpPaddedMask img mask S)]) ∧
    (normImage (tlpPaddedImg img S)).length = S ∧
    (∀ row ∈ normImage (tlpPaddedImg img S), row.length = S) ∧
    (decodeRef (tlpPaddedMask img mask S)).length = S ∧
    (∀ row ∈ decodeRef (tlpPaddedMask img mask S), row.length = S) ∧
    (H < S → W < S →
      newDims H W S = (H, W) ∧
      tlpPaddedImg img S = padCanvas img [0, 0, 0] H W S ∧
      tlpPaddedMask img mask S = padCanvas mask [0, 0, 0] H W S ∧
      (∀ i j, i < S → j < S →
        getPix (tlpPaddedImg img S) [0, 0, 0] i j =
          if i < H ∧ j < W then getPix img [0, 0, 0] i j else [0, 0, 0]) ∧
      (∀ i j, i < S → j < S →
        getPix (tlpPaddedMask img mask S) [0, 0, 0] i j =
          if i < H ∧ j < W then getPix mask [0, 0, 0] i j else [0, 0, 0])) ∧
    (S ≤ H ∨ S ≤ W →
      newDims H W S = (scaleDim H (max H W) S, scaleDim W (max H W) S) ∧
      (W ≤ H → (newDims H W S).1 = S) ∧
      (H ≤ W → (newDims H W S).2 = S) ∧
      tlpPaddedImg img S =
        padCanvas (resizeArea img (newDims H W S).1 (newDims H W S).2)
          [0, 0, 0] (newDims H W S).1 (newDims H W S).2 S ∧
      tlpPaddedMask img mask S =
        padCanvas
          (resizeNN mask [0, 0, 0] (newDims H W S).1 (newDims H W S).2)
          [0, 0, 0] (newDims H W S).1 (newDims H W S).2 S) := by
  refine ⟨topLeftPadProcess_eq img mask S hmk, ?_, ?_, ?_, ?_, ?_, ?_⟩
  · rw [normImage, List.length_map]
    simp only [tlpPaddedImg]
    exact padCanvas_length _ _ _ _ _
  · intro row hrow
    rw [normImage] at hrow
    obtain ⟨row0, hrow0, rfl⟩ := List.mem_map.1 hrow
    rw [List.length_map]
    simp only [tlpPaddedImg] at hrow0
    exact padCanvas_rows _ _ _ _ _ row0 hrow0
  · rw [decodeRef, List.length_map]
    simp only [tlpPaddedMask]
    exact padCanvas_length _ _ _ _ _
  · intro row hrow
    rw [decodeRef] at hrow
    obtain ⟨row0, hrow0, rfl⟩ := List.mem_map.1 hrow
    rw [List.length_map]
    simp only [tlpPaddedMask] at hrow0
    exact padCanvas_rows _ _ _ _ _ row0 hrow0
  · intro h1 h2
    have eimg : tlpPaddedImg img S = padCanvas img [0, 0, 0] H W S := by
      simp only [tlpPaddedImg]
      rw [hlen, hhead, newDims, if_neg (by omega), if_neg (by omega)]
    have emask : tlpPaddedMask img mask S =
        padCanvas mask [0, 0, 0] H W S := by
      simp only [tlpPaddedMask]
      rw [hlen, hhead, newDims, if_neg (by omega), if_neg (by omega)]
    refine ⟨by rw [newDims, if_neg (by omega)], eimg, emask, ?_, ?_⟩
    · intro i j hi hj
      rw [eimg, padCanvas_getPix img [0, 0, 0] H W S i j hi hj]
    · intro i j hi hj
      rw [emask, padCanvas_getPix mask [0, 0, 0] H W S i j hi hj]
  · intro hc
    refine ⟨by rw [newDims, if_pos hc], ?_, ?_, ?_, ?_⟩
    · intro hWH
      rw [newDims, if_pos hc]
      show scaleDim H (max H W) S = S
      rw [max_eq_left hWH]
      exact scaleDim_self H S hH
    · intro hHW
      rw [newDims, if_pos hc]
      show scaleDim W (max H W) S = S
      rw [max_eq_right hHW]
      exact scaleDim_self W S hW
    · simp only [tlpPaddedImg]
      rw [hlen, hhead, if_pos hc]
    · simp only [tlpPaddedMask]
      rw [hlen, hhead, if_pos hc]

/-- Concrete 2 by 3 image for the C4 witness. -/
def c4img : Grid (List ℕ) :=
  [[[1, 2, 3], [4, 5, 6], [7, 8, 9]], [[9, 9, 9], [8, 8, 8], [7, 7, 7]]]

/-- Concrete 2 by 3 mask for the C4 witness. -/
def c4mask : Grid (List ℕ) :=
  [[[0, 0, 0], [255, 255, 255], [0, 0, 0]],
    [[255, 255, 255], [0, 0, 0], [255, 255, 255]]]

/-- Witness for C4 at a concrete 2 by 3 input with S = 4. -/
theorem padcrop_geometry_witness :
    topLeftPadProcess c4img c4mask 4 =
      Except.ok ([normImage (tlpPaddedImg c4img 4)],
        [decodeRef (tlpPaddedMask c4img c4mask 4)]) ∧
    (normImage (tlpPaddedImg c4img 4)).length = 4 ∧
    (∀ row ∈ normImage (tlpPaddedImg c4img 4), row.length = 4) ∧
    (decodeRef (tlpPaddedMask c4img c4mask 4)).length = 4 ∧
    (∀ row ∈ decodeRef (tlpPaddedMask c4img c4mask 4), row.length = 4) ∧
    (2 < 4 → 3 < 4 →
      newDims 2 3 4 = (2, 3) ∧
      tlpPaddedImg c4img 4 = padCanvas c4img [0, 0, 0] 2 3 4 ∧
      tlpPaddedMask c4img c4mask 4 = padCanvas c4mask [0, 0, 0] 2 3 4 ∧
      (∀ i j, i < 4 → j < 4 →
        getPix (tlpPaddedImg c4img 4) [0, 0, 0] i j =
          if i < 2 ∧ j < 3 then getPix c4img [0, 0, 0] i j else [0, 0, 0]) ∧
      (∀ i j, i < 4 → j < 4 →
        getPix (tlpPaddedMask c4img c4mask 4) [0, 0, 0] i j =
          if i < 2 ∧ j < 3 then getPix c4mask [0, 0, 0] i j
          else [0, 0, 0])) ∧
    (4 ≤ 2 ∨ 4 ≤ 3 →
      newDims 2 3 4 = (scaleDim 2 (max 2 3) 4, scaleDim 3 (max 2 3) 4) ∧
      (3 ≤ 2 → (newDims 2 3 4).1 = 4) ∧
      (2 ≤ 3 → (newDims 2 3 4).2 = 4) ∧
      tlpPaddedImg c4img 4 =
        padCanvas (resizeArea c4img (newDims 2 3 4).1 (newDims 2 3 4).2)
          [0, 0, 0] (newDims 2 3 4).1 (newDims 2 3 4).2 4 ∧
      tlpPaddedMask c4img c4mask 4 =
        padCanvas
          (resizeNN c4mask [0, 0, 0] (newDims 2 3 4).1 (newDims 2 3 4).2)
          [0, 0, 0] (newDims 2 3 4).1 (newDims 2 3 4).2 4) :=
  padcrop_geometry c4img c4mask 2 3 4 (by decide) (by decide)
    (by unfold maskKnown; decide) (by decide) (by decide)

/-! ## Claim C8: the normalization formula -/

/-- Claim C8: every processed image value in channel c equals
`(pixel/255 - mean_c) / std_c` with mean (0.485, 0.456, 0.406) and std
(0.229, 0.224, 0.225), applied elementwise in all three strategies: the
per-pixel formula with the explicit constants, elementwise application of
`normPix` over any buffer, tiling samples being the normalized crops (with
the crop pixel traced back to the original image pixel), the PadCrop image
output being the normalized padded canvas, and the ResizeCrop image output
being the normalized resized image. -/
theorem normalization_formula (v0 v1 v2 : ℕ) (g : Grid (List ℕ))
    (img mask : Grid (List ℕ)) (f : String) (S : ℕ)
    (hH : S ≤ img.length) (hW : S ≤ (img.headD []).length)
    (hm : maskKnown mask) :
    normPix [v0, v1, v2] =
      [((v0 : ℚ) / 255 - 0.485) / 0.229, ((v1 : ℚ) / 255 - 0.456) / 0.224,
        ((v2 : ℚ) / 255 - 0.406) / 0.225] ∧
    (∀ i j, getPix (normImage g) [] i j = normPix (getPix g [] i j)) ∧
    fsProcess f img mask S = Except.ok (fsTilesRef img mask S) ∧
    (∀ rc : ℕ × ℕ, ∀ a b, a < S → b < S →
      getPix (normImage (crop2 img rc.1 rc.2 S)) [] a b =
        normPix (getPix img [] (rc.1 + a) (rc.2 + b))) ∧
    (∀ pr, topLeftPadProcess img mask S = Except.ok pr →
      pr.1 = [normImage (tlpPaddedImg img S)]) ∧
    iwProcessImage img S = normImage (resizeLinear img S S) := by
  refine ⟨rfl, fun i j => normImage_getPix g i j,
    fsProcess_eq_ref f img mask S hH hW hm, ?_, ?_, rfl⟩
  · intro rc a b ha hb
    rw [normImage_getPix, crop2_getPix img ([] : List ℕ) rc.1 rc.2 S a b ha hb]
  · intro pr hpr
    rw [topLeftPadProcess_eq img mask S hm] at hpr
    have h2 : ([normImage (tlpPaddedImg img S)],
        [decodeRef (tlpPaddedMask img mask S)]) = pr := by
      injection hpr
    rw [← h2]

/-- Concrete 2 by 2 image for the C8 witness. -/
def c8img : Grid (List ℕ) := [[[10, 20, 30], [40, 50, 60]],
  [[70, 80, 90], [100, 110, 120]]]

/-- Concrete 2 by 2 mask for the C8 witness. -/
def c8mask : Grid (List ℕ) := [[[0, 0, 0], [0, 0, 0]],
  [[255, 255, 255], [255, 255, 255]]]

/-- Witness for C8 at concrete channel values, a concrete buffer and a
concrete 2 by 2 image with S = 2. -/
theorem normalization_formula_witness :
    normPix [5, 6, 7] =
      [((5 : ℚ) / 255 - 0.485) / 0.229, ((6 : ℚ) / 255 - 0.456) / 0.224,
        ((7 : ℚ) / 255 - 0.406) / 0.225] ∧
    (∀ i j, getPix (normImage [[[10, 20, 30]]]) [] i j =
      normPix (getPix [[[10, 20, 30]]] [] i j)) ∧
    fsProcess "n.png" c8img c8mask 2 =
      Except.ok (fsTilesRef c8img c8mask 2) ∧
    (∀ rc : ℕ × ℕ, ∀ a b, a < 2 → b < 2 →
      getPix (normImage (crop2 c8img rc.1 rc.2 2)) [] a b =
        normPix (getPix c8img [] (rc.1 + a) (rc.2 + b))) ∧
    (∀ pr, topLeftPadProcess c8img c8mask 2 = Except.ok pr →
      pr.1 = [normImage (tlpPaddedImg c8img 2)]) ∧
    iwProcessImage c8img 2 = normImage (resizeLinear c8img 2 2) :=
  normalization_formula 5 6 7 [[[10, 20, 30]]] c8img c8mask "n.png" 2
    (by decide) (by decide) (by unfold maskKnown; decide)
